import Mathlib

/-
Shallow embedding of the Eisdrache LLVM wrapper (src/src/eisdrache.cpp):
the semantic type hierarchy (Ty and its isEqual / isValidRHS methods), the
type registry (addTy), the deferred-write protocol of Local (setFuture,
invokeFuture, getValuePtr, loadValue), the binary-operator and type-cast
dispatch of the builder facade, the local-name bookkeeping of Func, and the
field accesses emitted by the dynamic-array synthesizer (Array constructor).
Fatal diagnostics (Eisdrache::complain, which prints and exits) are modelled
as Except.error; emitted IR instructions are modelled as effect traces.
-/

namespace Eisdrache

/-- Kinds of entities, as the kind() virtual methods report them. -/
inductive TyKind where
  | void
  | ptr
  | int
  | float
  | strct
  | alias
deriving DecidableEq

/-- Semantic type descriptors: VoidTy, IntTy (bit width and signed flag,
which defaults to false in the source), FloatTy, PtrTy (pointee), Struct
(identified by its created llvm StructType, modelled as a Nat id) and
AliasTy (name and underlying type). -/
inductive Ty where
  | void
  | int (bit : Nat) (signed : Bool)
  | float (bit : Nat)
  | ptr (pointee : Ty)
  | strct (id : Nat)
  | aliasTy (name : String) (underlying : Ty)
deriving DecidableEq

/-- The kind() method of each Ty subclass. -/
def Ty.kind : Ty → TyKind
  | .void => .void
  | .int _ _ => .int
  | .float _ => .float
  | .ptr _ => .ptr
  | .strct _ => .strct
  | .aliasTy _ _ => .alias

/-- Structural equality, per subclass: VoidTy tests that comp is a VoidTy;
IntTy compares kind, bit width and signed flag; FloatTy compares kind and
bit width; PtrTy compares kind and recursively the pointee; Struct compares
the created llvm type by identity; AliasTy delegates to its underlying
type. -/
def Ty.isEqual : Ty → Ty → Bool
  | .void, .void => true
  | .void, _ => false
  | .int b s, .int b2 s2 => b == b2 && s == s2
  | .int _ _, _ => false
  | .float b, .float b2 => b == b2
  | .float _, _ => false
  | .ptr p, .ptr q => p.isEqual q
  | .ptr _, _ => false
  | .strct i, .strct j => i == j
  | .strct _, _ => false
  | .aliasTy _ u, c => u.isEqual c

/-- Whether comp may stand as the right operand of a binary operation:
false for every PtrTy (no valid binary operations for pointers) and for
every Struct; isEqual for IntTy and FloatTy; VoidTy accepts only VoidTy;
AliasTy delegates to its underlying type. -/
def Ty.isValidRHS : Ty → Ty → Bool
  | .void, .void => true
  | .void, _ => false
  | .int b s, c => Ty.isEqual (.int b s) c
  | .float b, c => Ty.isEqual (.float b) c
  | .ptr _, _ => false
  | .strct _, _ => false
  | .aliasTy _ u, c => u.isValidRHS c

/-- kind() == PTR. -/
def Ty.isPtrTy (t : Ty) : Bool := t.kind == .ptr

/-- kind() == INT. -/
def Ty.isIntTy (t : Ty) : Bool := t.kind == .int

/-- kind() == FLOAT. -/
def Ty.isFloatTy (t : Ty) : Bool := t.kind == .float

/-- kind() == FLOAT, or kind() == INT with the signed flag set. -/
def Ty.isSignedTy : Ty → Bool
  | .float _ => true
  | .int _ s => s
  | _ => false

/-- getBit(): bit width for IntTy and FloatTy, the pointee width for PtrTy,
the underlying width for AliasTy, and the base-class default 0 otherwise. -/
def Ty.getBit : Ty → Nat
  | .int b _ => b
  | .float b => b
  | .ptr p => p.getBit
  | .aliasTy _ u => u.getBit
  | _ => 0

/-- The pointee type of a PtrTy (getPointeeTy); identity on other types,
which the source never reaches where this is used. -/
def Ty.pointee : Ty → Ty
  | .ptr p => p
  | t => t

/-- Hereditarily primitive-or-pointer descriptors: the "primitive and
pointer combinations" over which interning identity is claimed. -/
def Ty.simple : Ty → Bool
  | .void => true
  | .int _ _ => true
  | .float _ => true
  | .ptr p => p.simple
  | .strct _ => false
  | .aliasTy _ _ => false

/-- The scan of Eisdrache::addTy: index of the first registry entry cty
with cty.isEqual candidate. -/
def findTy (reg : List Ty) (ty : Ty) : Option Nat :=
  match reg with
  | [] => none
  | cty :: rest => if cty.isEqual ty then some 0 else (findTy rest ty).map Nat.succ

/-- Eisdrache::addTy: scan the registry with structural equality, return
the existing entry when found, otherwise store the candidate at the back
and return it. The returned Nat is the index of the returned shared
instance, standing for its identity. -/
def addTy (reg : List Ty) (ty : Ty) : List Ty × Nat :=
  match findTy reg ty with
  | some i => (reg, i)
  | none => (reg ++ [ty], reg.length)

/-- A registry built by interning each type of the list in turn, starting
from the empty registry the context owns at construction. -/
def internAll (ts : List Ty) : List Ty :=
  ts.foldl (fun reg t => (addTy reg t).1) []

/-- A pending future: either a plain Value, or a Function together with the
value its call returns (retVoid marks a void-returning callee, whose call
is emitted for effect only). The callee is identified by a Nat id. -/
inductive FutVal where
  | val (v : Nat)
  | fn (retVoid : Bool) (fid : Nat) (ret : Nat)
deriving DecidableEq

/-- Instructions the future protocol and loads emit into the module. -/
inductive Effect where
  | callE (fid : Nat) (args : List Nat)
  | storeE (v : Nat) (toPtr : Nat)
  | loadE (fromPtr : Nat)
deriving DecidableEq

/-- Whether an effect is a call instruction. -/
def Effect.isCall : Effect → Bool
  | .callE _ _ => true
  | _ => false

/-- Number of call instructions in a trace. -/
def countCalls (tr : List Effect) : Nat := (tr.filter Effect.isCall).length

/-- Eisdrache::Local: the raw value reference (vptr, a Nat id; for a new
value-like Local produced by a load it is the loaded value), whether
dyn_cast to AllocaInst succeeds, the semantic type, the optional pending
future and its argument list. -/
structure Local where
  vptr : Nat
  alloca : Bool
  ty : Ty
  future : Option FutVal
  futureArgs : List Nat
deriving DecidableEq

/-- A Local together with the contents of its backing storage (what a load
from vptr reads) and the trace of instructions emitted so far. -/
structure St where
  loc : Local
  storage : Nat
  trace : List Effect
deriving DecidableEq

/-- Local::setFuture: registers a pending write without touching storage. -/
def setFuture (s : St) (f : FutVal) : St :=
  ⟨⟨s.loc.vptr, s.loc.alloca, s.loc.ty, some f, s.loc.futureArgs⟩, s.storage, s.trace⟩

/-- Local::invokeFuture: no-op without a pending future. A void-returning
callee is called for effect and the pending state cleared without a store;
a value-returning callee is called and its result stored into storage; a
plain value future is stored directly. Every materialization clears the
pending future and its arguments. -/
def invokeFuture (s : St) : St :=
  match s.loc.future with
  | none => s
  | some (.val v) =>
      ⟨⟨s.loc.vptr, s.loc.alloca, s.loc.ty, none, []⟩, v,
        s.trace ++ [.storeE v s.loc.vptr]⟩
  | some (.fn true fid _) =>
      ⟨⟨s.loc.vptr, s.loc.alloca, s.loc.ty, none, []⟩, s.storage,
        s.trace ++ [.callE fid s.loc.futureArgs]⟩
  | some (.fn false fid r) =>
      ⟨⟨s.loc.vptr, s.loc.alloca, s.loc.ty, none, []⟩, r,
        s.trace ++ [.callE fid s.loc.futureArgs, .storeE r s.loc.vptr]⟩

/-- Local::getValuePtr: invokeFuture first, then return the raw value. -/
def getValuePtr (s : St) : Nat × St :=
  let s2 := invokeFuture s
  (s2.loc.vptr, s2)

/-- Local::loadValue: when the Local is neither forced nor alloca-backed,
or its type is not a pointer, it is returned unchanged. Otherwise the
pending future is invoked only when the Local is alloca-backed, and a load
of the pointee type from vptr is emitted, yielding a new value-like Local
wrapping the loaded value. -/
def loadValue (force : Bool) (s : St) : Local × St :=
  if (!force && !s.loc.alloca) || !s.loc.ty.isPtrTy then (s.loc, s)
  else
    let s1 := if s.loc.alloca then invokeFuture s else s
    (⟨s1.storage, false, s1.loc.ty.pointee, none, []⟩,
      ⟨s1.loc, s1.storage, s1.trace ++ [.loadE s1.loc.vptr]⟩)

/-- The operator codes handled by Eisdrache::binaryOp. -/
inductive Op where
  | add
  | sub
  | mul
  | div
  | mod
  | orOp
  | xorOp
  | andOp
  | lsh
  | rsh
  | equ
  | neq
  | les
  | lte
  | gre
  | gte
deriving DecidableEq

/-- The llvm instruction forms binaryOp selects between. -/
inductive BinInstr where
  | fadd
  | iadd
  | fsub
  | isub
  | fmul
  | imul
  | fdiv
  | frem
  | srem
  | urem
  | orI
  | xorI
  | andI
  | shl
  | lshr
  | fcmpOEQ
  | icmpEQ
  | fcmpONE
  | icmpNE
  | fcmpOLT
  | icmpSLT
  | icmpULT
  | fcmpOLE
  | icmpSLE
  | icmpULE
  | fcmpOGT
  | icmpSGT
  | icmpUGT
  | fcmpOGE
  | icmpSGE
  | icmpUGE
deriving DecidableEq

/-- Eisdrache::binaryOp on the loaded operand types (both operands are
loaded first in the source; l and r here are the loaded types). The result
Local is created with the loaded LHS type; only DIV overrides it, always
emitting float division and promoting the result type to the 64-bit float.
When isValidRHS fails, complain reports a diagnostic and terminates the
process, modelled as Except.error. -/
def binaryOp (op : Op) (l r : Ty) : Except String (BinInstr × Ty) :=
  if !(l.isValidRHS r) then
    .error "Eisdrache::binaryOp(): LHS and RHS types differ too much."
  else
    match op with
    | .add => .ok (if l.isFloatTy then .fadd else .iadd, l)
    | .sub => .ok (if l.isFloatTy then .fsub else .isub, l)
    | .mul => .ok (if l.isFloatTy then .fmul else .imul, l)
    | .div => .ok (.fdiv, Ty.float 64)
    | .mod => .ok (if l.isFloatTy then .frem else if l.isSignedTy then .srem else .urem, l)
    | .orOp => .ok (.orI, l)
    | .xorOp => .ok (.xorI, l)
    | .andOp => .ok (.andI, l)
    | .lsh => .ok (.shl, l)
    | .rsh => .ok (.lshr, l)
    | .equ => .ok (if l.isFloatTy then .fcmpOEQ else .icmpEQ, l)
    | .neq => .ok (if l.isFloatTy then .fcmpONE else .icmpNE, l)
    | .les => .ok (if l.isFloatTy then .fcmpOLT else if l.isSignedTy then .icmpSLT else .icmpULT, l)
    | .lte => .ok (if l.isFloatTy then .fcmpOLE else if l.isSignedTy then .icmpSLE else .icmpULE, l)
    | .gre => .ok (if l.isFloatTy then .fcmpOGT else if l.isSignedTy then .icmpSGT else .icmpUGT, l)
    | .gte => .ok (if l.isFloatTy then .fcmpOGE else if l.isSignedTy then .icmpSGE else .icmpUGE, l)

/-- The llvm cast instruction forms typeCast selects between; noopLoad is
the same-type case that just returns the loaded value. -/
inductive CastInstr where
  | noopLoad
  | fpext
  | fptrunc
  | fptosi
  | fptoui
  | sitofp
  | uitofp
  | sext
  | zext
  | truncI
  | inttoptr
  | ptrtoint
  | bitcast
deriving DecidableEq

/-- Eisdrache::typeCast on the loaded source type fr and the target to,
mirroring the source branch for branch. Float to pointer and pointer to
float call complain (diagnostic, process exit), modelled as Except.error
with no cast instruction emitted. -/
def typeCast (fr dst : Ty) : Except String CastInstr :=
  if fr.isEqual dst then .ok .noopLoad
  else if fr.isFloatTy then
    if dst.isFloatTy then
      if fr.getBit < dst.getBit then .ok .fpext else .ok .fptrunc
    else if dst.isSignedTy then .ok .fptosi
    else if dst.isPtrTy then
      .error "Eisdrache::typeCast(): Invalid type cast (Float -> Pointer)."
    else .ok .fptoui
  else if fr.isSignedTy then
    if dst.isFloatTy then .ok .sitofp
    else if dst.isPtrTy then .ok .inttoptr
    else if dst.isSignedTy then
      if fr.getBit < dst.getBit then .ok .sext else .ok .truncI
    else
      if fr.getBit < dst.getBit then .ok .zext else .ok .truncI
  else if fr.isPtrTy then
    if dst.isFloatTy then
      .error "Eisdrache::typeCast(): Invalid type cast (Pointer -> Float)."
    else if dst.isPtrTy then .ok .bitcast
    else .ok .ptrtoint
  else
    if dst.isFloatTy then .ok .uitofp
    else if dst.isPtrTy then .ok .inttoptr
    else
      if fr.getBit < dst.getBit then .ok .zext else .ok .truncI

/-- The locals table of a Func: names mapped to Local ids, modelled as an
association list (entry order stands for the map contents; size() is its
length). -/
abbrev LocalMap := List (String × Nat)

/-- std::map::contains. -/
def containsKey (m : LocalMap) (k : String) : Bool :=
  m.any (fun p => p.1 == k)

/-- Lookup of a key, first entry wins. -/
def lookupKey (m : LocalMap) (k : String) : Option Nat :=
  match m with
  | [] => none
  | p :: rest => if p.1 == k then some p.2 else lookupKey rest k

/-- locals[symbol] = local: assigns over an existing key, inserts a fresh
one at the back otherwise. -/
def insertAssign (m : LocalMap) (k : String) (v : Nat) : LocalMap :=
  if containsKey m k then m.map (fun p => if p.1 == k then (k, v) else p)
  else m ++ [(k, v)]

/-- The symbol Eisdrache::Func::addLocal files a local under: the name
suffixed with the current table size when the local is unnamed (getName
returns "unnamed") or its name is already a key, the plain name
otherwise. -/
def localSymbol (m : LocalMap) (name : String) : String :=
  if name == "unnamed" || containsKey m name then name ++ toString m.length
  else name

/-- Eisdrache::Func::addLocal: compute the symbol and assign the local to
it in the table. -/
def Func.addLocal (m : LocalMap) (name : String) (v : Nat) : LocalMap :=
  insertAssign m (localSymbol m name) v

/-- The four fields of the struct backing a synthesized dynamic array, in
declaration order: buffer (element pointer), size, max and factor (all
i64). -/
structure ArrObj where
  buffer : Nat
  size : Nat
  max : Nat
  factor : Nat
deriving DecidableEq

/-- getElementPtr field read at a given index of the backing struct. -/
def ArrObj.fieldAt (o : ArrObj) : Nat → Nat
  | 0 => o.buffer
  | 1 => o.size
  | 2 => o.max
  | 3 => o.factor
  | _ => 0

/-- Store through the getElementPtr of the field at a given index. -/
def ArrObj.setFieldAt (o : ArrObj) (i v : Nat) : ArrObj :=
  match i with
  | 0 => ⟨v, o.size, o.max, o.factor⟩
  | 1 => ⟨o.buffer, v, o.max, o.factor⟩
  | 2 => ⟨o.buffer, o.size, v, o.factor⟩
  | 3 => ⟨o.buffer, o.size, o.max, v⟩
  | _ => o

/-- Body of the generated get_buffer: load of field index 0. -/
def get_buffer_body (o : ArrObj) : Nat := o.fieldAt 0

/-- Body of the generated set_buffer: store to field index 0. -/
def set_buffer_body (o : ArrObj) (v : Nat) : ArrObj := o.setFieldAt 0 v

/-- Body of the generated get_size: load of field index 1. -/
def get_size_body (o : ArrObj) : Nat := o.fieldAt 1

/-- Body of the generated set_size: store to field index 1. -/
def set_size_body (o : ArrObj) (v : Nat) : ArrObj := o.setFieldAt 1 v

/-- Body of the generated get_max: load of field index 2. -/
def get_max_body (o : ArrObj) : Nat := o.fieldAt 2

/-- Body of the generated set_max: the source emits getElementPtr with
field index 1 (the size field), not 2, and stores the argument there. -/
def set_max_body (o : ArrObj) (v : Nat) : ArrObj := o.setFieldAt 1 v

/-- Body of the generated get_factor: load of field index 3. -/
def get_factor_body (o : ArrObj) : Nat := o.fieldAt 3

/-- Body of the generated set_factor: the source emits getElementPtr with
field index 1 (the size field), not 3, and stores the argument there. -/
def set_factor_body (o : ArrObj) (v : Nat) : ArrObj := o.setFieldAt 1 v

/-- Heap-level effects the generated constructors, destructor and resize
emit: a malloc of a byte count returning a pointer, a memcpy, a free, and
a store of null through a buffer pointer. -/
inductive HeapEff where
  | mallocE (bytes : Nat) (ret : Nat)
  | memcpyE (dst : Nat) (src : Nat) (n : Nat)
  | freeE (p : Nat)
  | storeNullE (p : Nat)
deriving DecidableEq

/-- Body of the generated constructor_size(n) for an element type of
elemBit bits, with a the pointer malloc returns: the byte count is
n times (elemBit / 8) (a 64-bit multiply), malloc is called with it, the
allocation is stored through set_buffer, then set_size is called with n,
set_max with the constant 0, and set_factor with the constant 16. -/
def constructor_size_body (elemBit a : Nat) (o : ArrObj) (n : Nat) :
    ArrObj × List HeapEff :=
  let bytes := (n * (elemBit / 8)) % 2 ^ 64
  let o1 := set_buffer_body o a
  let o2 := set_size_body o1 n
  let o3 := set_max_body o2 0
  let o4 := set_factor_body o3 16
  (o4, [.mallocE bytes a])

/-- Body of the generated resize(new_max) for an element type of elemBit
bits, with a the pointer malloc returns: allocate new_max times
(elemBit / 8) bytes; read buffer (field 0) and size (field 1); when the
old buffer is null, store null through the new buffer, otherwise memcpy
size bytes from old to new and free the old buffer; then store the new
buffer through set_buffer (field 0) and store new_max through the
getElementPtr of field index 3 (the factor field; the source names the
pointer max_ptr but indexes field 3). -/
def resize_body (elemBit a : Nat) (o : ArrObj) (new_max : Nat) :
    ArrObj × List HeapEff :=
  let bytes := (new_max * (elemBit / 8)) % 2 ^ 64
  let buffer := get_buffer_body o
  let size := get_size_body o
  let effs :=
    if buffer == 0 then [HeapEff.mallocE bytes a, .storeNullE a]
    else [HeapEff.mallocE bytes a, .memcpyE a buffer size, .freeE buffer]
  let o1 := set_buffer_body o a
  let o2 := o1.setFieldAt 3 new_max
  (o2, effs)

/-- getSizeTy(): a 64-bit integer with the signed flag defaulted false. -/
def getSizeTy : Ty := Ty.int 64 false

/-- getUnsignedTy(bit): an integer with the signed flag defaulted false. -/
def getUnsignedTy (bit : Nat) : Ty := Ty.int bit false

/-- The implicit this parameter createMemberFunc prepends: a pointer to
the backing struct. -/
def selfPtrTy : Ty := Ty.ptr (Ty.strct 0)

/-- Parameter types of the generated is_valid_index: this, then the index
declared as getSizeTy (u64). -/
def is_valid_index_params : List Ty := [selfPtrTy, getSizeTy]

/-- Parameter types of the generated get_at_index: this, then the index
declared as getUnsignedTy 32. -/
def get_at_index_params : List Ty := [selfPtrTy, getUnsignedTy 32]

/-- Parameter types of the generated set_at_index: this, the index
declared as getUnsignedTy 32, then the value of the element type. -/
def set_at_index_params (elemTy : Ty) : List Ty :=
  [selfPtrTy, getUnsignedTy 32, elemTy]

/-! Lemmas about structural equality and the registry scan. -/

/-- Structural equality is reflexive on primitive and pointer types. -/
theorem Ty.isEqual_refl_of_simple (t : Ty) (h : t.simple = true) :
    t.isEqual t = true := by
  induction t with
  | void => rfl
  | int b s => simp [Ty.isEqual]
  | float b => simp [Ty.isEqual]
  | ptr p ih => exact ih (by simpa [Ty.simple] using h)
  | strct i => simp [Ty.simple] at h
  | aliasTy n u ih => simp [Ty.simple] at h

/-- On primitive and pointer types, structural equality coincides with
equality of the descriptors. -/
theorem Ty.isEqual_iff_eq_of_simple (a : Ty) (h : a.simple = true) (b : Ty) :
    a.isEqual b = true ↔ a = b := by
  induction a generalizing b with
  | void => cases b <;> simp [Ty.isEqual]
  | int bit s => cases b <;> simp [Ty.isEqual]
  | float bit => cases b <;> simp [Ty.isEqual]
  | ptr p ih =>
      cases b <;> simp [Ty.isEqual]
      exact ih (by simpa [Ty.simple] using h) _
  | strct i => simp [Ty.simple] at h
  | aliasTy n u ih => simp [Ty.simple] at h

/-- The registry scan comes up empty exactly when no entry matches. -/
theorem findTy_none_iff (reg : List Ty) (ty : Ty) :
    findTy reg ty = none ↔ ∀ c ∈ reg, c.isEqual ty = false := by
  induction reg with
  | nil => simp [findTy]
  | cons c rest ih =>
      by_cases hc : c.isEqual ty = true
      · simp [findTy, hc]
      · simp only [Bool.not_eq_true] at hc
        simp [findTy, hc, ih]

/-- After appending a self-matching candidate to a registry with no match,
the scan finds it at the old length. -/
theorem findTy_append_self (reg : List Ty) (ty : Ty)
    (hnone : findTy reg ty = none) (hrefl : ty.isEqual ty = true) :
    findTy (reg ++ [ty]) ty = some reg.length := by
  induction reg with
  | nil => simp [findTy, hrefl]
  | cons c rest ih =>
      have hc : c.isEqual ty = false :=
        (findTy_none_iff (c :: rest) ty).mp hnone c (by simp)
      have hrest : findTy rest ty = none := by
        rw [findTy_none_iff]
        intro x hx
        exact (findTy_none_iff (c :: rest) ty).mp hnone x (by simp [hx])
      simp [findTy, hc, ih hrest]

/-- Interning the same primitive or pointer shape twice returns the same
registry and the same entry. -/
theorem addTy_twice (reg : List Ty) (t : Ty) (ht : t.simple = true) :
    addTy (addTy reg t).1 t = addTy reg t := by
  unfold addTy
  cases hfind : findTy reg t with
  | some i => simp [hfind]
  | none =>
      simp only [hfind]
      rw [findTy_append_self reg t hfind (Ty.isEqual_refl_of_simple t ht)]

/-- Registry invariant: all entries are primitive or pointer shapes and no
entry repeats. -/
def RegOk (reg : List Ty) : Prop :=
  (∀ e ∈ reg, e.simple = true) ∧ reg.Nodup

/-- addTy preserves the registry invariant for primitive and pointer
candidates. -/
theorem addTy_regOk (reg : List Ty) (t : Ty) (h : RegOk reg) (ht : t.simple = true) :
    RegOk (addTy reg t).1 := by
  unfold addTy
  cases hfind : findTy reg t with
  | some i => exact h
  | none =>
      constructor
      · intro e he
        rcases List.mem_append.mp he with h1 | h2
        · exact h.1 e h1
        · simp at h2; subst h2; exact ht
      · have hnotmem : t ∉ reg := by
          intro hmem
          have := (findTy_none_iff reg t).mp hfind t hmem
          rw [Ty.isEqual_refl_of_simple t ht] at this
          exact Bool.true_eq_false.mp this
        simp [List.nodup_append, h.2, hnotmem]

/-- Folding addTy over a list of primitive and pointer shapes preserves the
registry invariant. -/
theorem internAll_aux_regOk (ts : List Ty) (reg : List Ty) (h : RegOk reg)
    (hts : ∀ u ∈ ts, u.simple = true) :
    RegOk (ts.foldl (fun r t => (addTy r t).1) reg) := by
  induction ts generalizing reg with
  | nil => simpa using h
  | cons t rest ih =>
      simp only [List.foldl_cons]
      exact ih _ (addTy_regOk reg t h (hts t (by simp)))
        (fun u hu => hts u (by simp [hu]))

/-- A registry interned from primitive and pointer shapes satisfies the
invariant. -/
theorem internAll_regOk (ts : List Ty) (hts : ∀ u ∈ ts, u.simple = true) :
    RegOk (internAll ts) :=
  internAll_aux_regOk ts [] ⟨by simp, List.nodup_nil⟩ hts

/-- Under the registry invariant, structural equality of two entries holds
exactly when they are the same entry, so identity comparison suffices. -/
theorem regOk_identity (reg : List Ty) (h : RegOk reg)
    (i j : Fin reg.length) :
    ((reg.get i).isEqual (reg.get j) = true) ↔ i = j := by
  constructor
  · intro hij
    have hsimple : (reg.get i).simple = true := h.1 _ (reg.get_mem i.1 i.2)
    have heq : reg.get i = reg.get j :=
      (Ty.isEqual_iff_eq_of_simple _ hsimple _).mp hij
    exact (List.Nodup.get_inj_iff h.2).mp heq
  · intro hij
    subst hij
    exact Ty.isEqual_refl_of_simple _ (h.1 _ (reg.get_mem i.1 i.2))

/-- Claim C2: addTy scans existing entries with structural equality,
returns the existing entry if found, and otherwise stores and returns the
candidate; hence interning the same primitive or pointer shape twice
returns the identical registry entry (the registry and the returned index
are unchanged by the second request), and in a registry interned from
primitive and pointer shapes, structural equality of entries coincides
with identity of entries. -/
theorem addTy_interning (reg ts : List Ty) (t : Ty)
    (ht : t.simple = true) (hts : ∀ u ∈ ts, u.simple = true) :
    addTy (addTy reg t).1 t = addTy reg t ∧
    (∀ i j : Fin (internAll ts).length,
      (((internAll ts).get i).isEqual ((internAll ts).get j) = true) ↔ i = j) :=
  ⟨addTy_twice reg t ht, fun i j => regOk_identity _ (internAll_regOk ts hts) i j⟩

/-- Witness for C2: interning the pointer-to-int32 shape twice into the
empty registry returns the identical entry, and a registry interned from
int32, pointer-to-int32 and int32 again has identity-determining
structural equality. -/
theorem addTy_interning_witness :
    addTy (addTy [] (Ty.ptr (Ty.int 32 false))).1 (Ty.ptr (Ty.int 32 false)) =
      addTy [] (Ty.ptr (Ty.int 32 false)) ∧
    (∀ i j : Fin (internAll [Ty.int 32 false, Ty.ptr (Ty.int 32 false),
        Ty.int 32 false]).length,
      (((internAll [Ty.int 32 false, Ty.ptr (Ty.int 32 false), Ty.int 32 false]).get i).isEqual
        ((internAll [Ty.int 32 false, Ty.ptr (Ty.int 32 false), Ty.int 32 false]).get j) = true) ↔
        i = j) :=
  addTy_interning [] [Ty.int 32 false, Ty.ptr (Ty.int 32 false), Ty.int 32 false]
    (Ty.ptr (Ty.int 32 false)) (by decide) (by decide)

/-! Lemmas about the deferred-write protocol. -/

/-- invokeFuture always leaves no pending future. -/
theorem invokeFuture_clears (t : St) : (invokeFuture t).loc.future = none := by
  rcases t with ⟨⟨vp, al, ty, fut, fa⟩, stor, tr⟩
  cases fut with
  | none => rfl
  | some f =>
      cases f with
      | val v => rfl
      | fn rv fid r => cases rv <;> rfl

/-- invokeFuture with no pending future is a no-op. -/
theorem invokeFuture_noop (t : St) (h : t.loc.future = none) : invokeFuture t = t := by
  unfold invokeFuture
  rw [h]

/-- invokeFuture does not change the raw value, the alloca flag or the
type of the Local. -/
theorem invokeFuture_keeps (t : St) :
    (invokeFuture t).loc.alloca = t.loc.alloca ∧ (invokeFuture t).loc.ty = t.loc.ty ∧
      (invokeFuture t).loc.vptr = t.loc.vptr := by
  rcases t with ⟨⟨vp, al, ty, fut, fa⟩, stor, tr⟩
  cases fut with
  | none => exact ⟨rfl, rfl, rfl⟩
  | some f =>
      cases f with
      | val v => exact ⟨rfl, rfl, rfl⟩
      | fn rv fid r => cases rv <;> exact ⟨rfl, rfl, rfl⟩

/-- Materializing a plain value future stores that value. -/
theorem invokeFuture_storage_val (t : St) (v : Nat)
    (h : t.loc.future = some (FutVal.val v)) : (invokeFuture t).storage = v := by
  unfold invokeFuture
  rw [h]

/-- Materializing a value-returning call future stores the call result. -/
theorem invokeFuture_storage_fn (t : St) (fid r : Nat)
    (h : t.loc.future = some (FutVal.fn false fid r)) : (invokeFuture t).storage = r := by
  unfold invokeFuture
  rw [h]

/-- A load instruction adds no call to the trace. -/
theorem countCalls_load_append (tr : List Effect) (p : Nat) :
    countCalls (tr ++ [Effect.loadE p]) = countCalls tr := by
  simp [countCalls, List.filter_append, Effect.isCall]

/-- On an alloca-backed pointer-typed Local, loadValue invokes the future
and then loads the materialized storage. -/
theorem loadValue_alloca_eq (t : St) (force : Bool) (h1 : t.loc.alloca = true)
    (h2 : t.loc.ty.isPtrTy = true) :
    loadValue force t =
      (⟨(invokeFuture t).storage, false, (invokeFuture t).loc.ty.pointee, none, []⟩,
        ⟨(invokeFuture t).loc, (invokeFuture t).storage,
          (invokeFuture t).trace ++ [Effect.loadE (invokeFuture t).loc.vptr]⟩) := by
  simp [loadValue, h1, h2]

/-- Claim C1 (amended): for every alloca-backed Local of pointer type with
a pending future, a load (loadValue) first invokes the pending future, so
the read observes the future value (or the value-returning call result),
never the prior storage contents; a read issued immediately after
setFuture observes the future value; materialization always clears the
pending future, so a second read without an intervening setFuture returns
the same materialized value without emitting any further call (no
re-invocation of a void-returning future); invoking with no pending future
is a no-op, invokeFuture always clears the pending future, and
getValuePtr always invokes the pending future first. The restriction to
alloca-backed Locals is forced by the counterexample below: a forced load
of a value-like Local skips the invocation. -/
theorem local_future_ordering (s : St) (force : Bool)
    (h1 : s.loc.alloca = true) (h2 : s.loc.ty.isPtrTy = true) :
    (loadValue force s).1.vptr = (invokeFuture s).storage ∧
    (loadValue force s).2.loc.future = none ∧
    (∀ v, s.loc.future = some (FutVal.val v) → (loadValue force s).1.vptr = v) ∧
    (∀ fid r, s.loc.future = some (FutVal.fn false fid r) →
      (loadValue force s).1.vptr = r) ∧
    (∀ v, (loadValue force (setFuture s (FutVal.val v))).1.vptr = v) ∧
    (loadValue force (loadValue force s).2).1.vptr = (loadValue force s).1.vptr ∧
    countCalls (loadValue force (loadValue force s).2).2.trace =
      countCalls (loadValue force s).2.trace ∧
    (∀ t : St, t.loc.future = none → invokeFuture t = t) ∧
    (∀ t : St, (invokeFuture t).loc.future = none) ∧
    (∀ t : St, (getValuePtr t).2 = invokeFuture t) := by
  have hload := loadValue_alloca_eq s force h1 h2
  have hal2 : (loadValue force s).2.loc.alloca = true := by
    rw [hload]; exact (invokeFuture_keeps s).1.trans h1
  have hty2 : (loadValue force s).2.loc.ty.isPtrTy = true := by
    rw [hload]
    show (invokeFuture s).loc.ty.isPtrTy = true
    rw [(invokeFuture_keeps s).2.1]; exact h2
  have hfut2 : (loadValue force s).2.loc.future = none := by
    rw [hload]; exact invokeFuture_clears s
  have hload2 := loadValue_alloca_eq (loadValue force s).2 force hal2 hty2
  have hnoop2 : invokeFuture (loadValue force s).2 = (loadValue force s).2 :=
    invokeFuture_noop _ hfut2
  refine ⟨by rw [hload], hfut2, ?_, ?_, ?_, ?_, ?_, invokeFuture_noop, invokeFuture_clears,
    fun t => rfl⟩
  · intro v hv
    rw [hload]
    exact invokeFuture_storage_val s v hv
  · intro fid r hr
    rw [hload]
    exact invokeFuture_storage_fn s fid r hr
  · intro v
    have hsf := loadValue_alloca_eq (setFuture s (FutVal.val v)) force h1 h2
    rw [hsf]
    exact invokeFuture_storage_val _ v rfl
  · rw [hload2, hnoop2, hload]
  · rw [hload2, hnoop2, hload]
    show countCalls ((invokeFuture s).trace ++ [Effect.loadE (invokeFuture s).loc.vptr]
      ++ [Effect.loadE (invokeFuture s).loc.vptr]) = _
    rw [countCalls_load_append, countCalls_load_append]

/-- Witness for C1 at a concrete alloca-backed Local: the load after a
pending plain value future 7 observes 7. -/
theorem local_future_ordering_witness :
    (loadValue true ⟨⟨0, true, Ty.ptr (Ty.int 32 false), some (FutVal.val 7), []⟩,
      3, []⟩).1.vptr = 7 :=
  ((local_future_ordering ⟨⟨0, true, Ty.ptr (Ty.int 32 false), some (FutVal.val 7), []⟩,
    3, []⟩ true rfl rfl).2.2.1) 7 rfl

/-- Counterexample to C1 as stated: a forced loadValue on a value-like
(non alloca-backed) pointer-typed Local with pending future 7 and prior
storage 3 emits the load without invoking the future: the read observes 3,
the future stays pending, and no call or store is emitted. -/
theorem loadValue_skips_future_nonalloca :
    (loadValue true ⟨⟨0, false, Ty.ptr (Ty.int 32 false), some (FutVal.val 7), []⟩,
      3, []⟩).1.vptr = 3 ∧
    (loadValue true ⟨⟨0, false, Ty.ptr (Ty.int 32 false), some (FutVal.val 7), []⟩,
      3, []⟩).2.loc.future = some (FutVal.val 7) ∧
    countCalls (loadValue true ⟨⟨0, false, Ty.ptr (Ty.int 32 false),
      some (FutVal.val 7), []⟩, 3, []⟩).2.trace = 0 := by decide

/-! Theorems about operator dispatch, casts, local bookkeeping and the
array synthesizer. -/

/-- Claim C6: binaryOp applied to DIV on two operands of equal loaded type,
int and float alike, yields the float-division instruction and the 64-bit
float result type; for every other operator the result type is the loaded
LHS type. -/
theorem binaryOp_div_promotes (l r : Ty)
    (hl : (l.isIntTy || l.isFloatTy) = true) (heq : l.isEqual r = true) :
    binaryOp Op.div l r = Except.ok (BinInstr.fdiv, Ty.float 64) ∧
    (∀ (op : Op) (a b : Ty) (res : BinInstr × Ty), op ≠ Op.div →
      binaryOp op a b = Except.ok res → res.2 = a) := by
  constructor
  · have hvalid : l.isValidRHS r = true := by
      cases l <;> simp_all [Ty.isValidRHS, Ty.isIntTy, Ty.isFloatTy, Ty.kind]
    simp [binaryOp, hvalid]
  · intro op a b res hop hok
    unfold binaryOp at hok
    split at hok
    · exact Except.noConfusion hok
    · cases op <;> first
        | exact absurd rfl hop
        | (simp only [Except.ok.injEq] at hok; rw [← hok])

/-- Witness for C6: DIV on two unsigned 32-bit integer operands yields
float division at the 64-bit float type. -/
theorem binaryOp_div_promotes_witness :
    binaryOp Op.div (Ty.int 32 false) (Ty.int 32 false) =
      Except.ok (BinInstr.fdiv, Ty.float 64) :=
  (binaryOp_div_promotes (Ty.int 32 false) (Ty.int 32 false) (by decide) (by decide)).1

/-- Claim C7: binaryOp fails fatally (complain, modelled as Except.error,
with no instruction emitted) whenever isValidRHS of the loaded operand
types is false; isValidRHS is false for every pointer type and every
struct type on either side, and on IntTy and FloatTy it equals structural
equality. -/
theorem binaryOp_invalid_fatal :
    (∀ (op : Op) (l r : Ty), l.isValidRHS r = false →
      binaryOp op l r =
        Except.error "Eisdrache::binaryOp(): LHS and RHS types differ too much.") ∧
    (∀ (p c : Ty), (Ty.ptr p).isValidRHS c = false) ∧
    (∀ (n : Nat) (c : Ty), (Ty.strct n).isValidRHS c = false) ∧
    (∀ (l p : Ty), l.isValidRHS (Ty.ptr p) = false) ∧
    (∀ (l : Ty) (n : Nat), l.isValidRHS (Ty.strct n) = false) ∧
    (∀ (b : Nat) (sg : Bool) (c : Ty),
      (Ty.int b sg).isValidRHS c = (Ty.int b sg).isEqual c) ∧
    (∀ (b : Nat) (c : Ty), (Ty.float b).isValidRHS c = (Ty.float b).isEqual c) := by
  refine ⟨?_, fun p c => rfl, fun n c => rfl, ?_, ?_, fun b sg c => rfl, fun b c => rfl⟩
  · intro op l r h
    simp [binaryOp, h]
  · intro l p
    induction l <;> first | rfl | assumption
  · intro l n
    induction l <;> first | rfl | assumption

/-- Claim C8: typeCast from a float type to a pointer type, and from a
pointer type to a float type, reports a diagnostic and terminates
generation (Except.error, no cast instruction emitted); integer-to-pointer
and pointer-to-integer casts are permitted for both signed flags. -/
theorem typeCast_float_pointer_fatal :
    (∀ (fb : Nat) (p : Ty), typeCast (Ty.float fb) (Ty.ptr p) =
      Except.error "Eisdrache::typeCast(): Invalid type cast (Float -> Pointer).") ∧
    (∀ (p : Ty) (fb : Nat), typeCast (Ty.ptr p) (Ty.float fb) =
      Except.error "Eisdrache::typeCast(): Invalid type cast (Pointer -> Float).") ∧
    (∀ (b : Nat) (sg : Bool) (p : Ty),
      typeCast (Ty.int b sg) (Ty.ptr p) = Except.ok CastInstr.inttoptr) ∧
    (∀ (p : Ty) (b : Nat) (sg : Bool),
      typeCast (Ty.ptr p) (Ty.int b sg) = Except.ok CastInstr.ptrtoint) := by
  refine ⟨fun fb p => rfl, fun p fb => rfl, ?_, fun p b sg => rfl⟩
  intro b sg p
  cases sg <;> rfl

/-- Entries already present keep their binding when the table only grows
at the back. -/
theorem lookupKey_append_some (m l : LocalMap) (k : String) (v : Nat)
    (h : lookupKey m k = some v) : lookupKey (m ++ l) k = some v := by
  induction m with
  | nil => simp [lookupKey] at h
  | cons p rest ih =>
      simp only [List.cons_append]
      cases hp : (p.1 == k) with
      | true => simp_all [lookupKey]
      | false =>
          simp only [lookupKey, hp, Bool.false_eq_true, if_false] at h ⊢
          exact ih h

/-- A key the table does not contain looks up to nothing. -/
theorem containsKey_false_lookup (m : LocalMap) (k : String)
    (h : containsKey m k = false) : lookupKey m k = none := by
  induction m with
  | nil => rfl
  | cons p rest ih =>
      simp only [containsKey, List.any_cons, Bool.or_eq_false_iff] at h
      simp only [lookupKey, h.1, Bool.false_eq_true, if_false]
      exact ih h.2

/-- Appending a binding for an absent key makes it the lookup result. -/
theorem lookupKey_append_self (m : LocalMap) (k : String) (v : Nat)
    (h : lookupKey m k = none) : lookupKey (m ++ [(k, v)]) k = some v := by
  induction m with
  | nil => simp [lookupKey]
  | cons p rest ih =>
      cases hp : (p.1 == k) with
      | true => simp [lookupKey, hp] at h
      | false =>
          simp only [lookupKey, hp, Bool.false_eq_true, if_false] at h
          simp only [List.cons_append, lookupKey, hp, Bool.false_eq_true, if_false]
          exact ih h

/-- Claim C9 (amended): Func.addLocal registers a colliding or unnamed
local under its name suffixed with the current table size and never fails;
provided that suffixed symbol is not itself already a key, no existing
local is overwritten, the new local is found under the computed symbol,
and the table grows by one. When the suffixed symbol does coincide with an
existing key, that entry is overwritten (see the counterexample). -/
theorem addLocal_fresh_preserves (m : LocalMap) (name : String) (v : Nat)
    (h : containsKey m (localSymbol m name) = false) :
    (∀ k w, lookupKey m k = some w → lookupKey (Func.addLocal m name v) k = some w) ∧
    lookupKey (Func.addLocal m name v) (localSymbol m name) = some v ∧
    (Func.addLocal m name v).length = m.length + 1 := by
  unfold Func.addLocal insertAssign
  simp only [h, Bool.false_eq_true, if_false]
  refine ⟨?_, ?_, by simp⟩
  · intro k w hw
    exact lookupKey_append_some m _ k w hw
  · exact lookupKey_append_self m _ v (containsKey_false_lookup m _ h)

/-- Counterexample to C9 as stated: after registering locals named a2 and
a, adding another local named a computes the suffixed symbol a2 (name plus
table size 2), which collides with the existing key a2; the local stored
there (id 1) is overwritten by the new one (id 3). -/
theorem addLocal_overwrite :
    lookupKey (Func.addLocal (Func.addLocal (Func.addLocal [] "a2" 1) "a" 2) "a" 3)
      "a2" = some 3 ∧
    lookupKey (Func.addLocal (Func.addLocal [] "a2" 1) "a" 2) "a2" = some 1 ∧
    localSymbol (Func.addLocal (Func.addLocal [] "a2" 1) "a" 2) "a" = "a2" := by decide

/-- Witness for C9 at a concrete table: adding a second local named x to a
table holding x files it under x1, keeps the old binding and grows the
table to two entries. -/
theorem addLocal_fresh_preserves_witness :
    lookupKey (Func.addLocal [("x", 1)] "x" 2) (localSymbol [("x", 1)] "x") = some 2 ∧
    (Func.addLocal [("x", 1)] "x" 2).length = 2 :=
  ⟨(addLocal_fresh_preserves [("x", 1)] "x" 2 (by decide)).2.1,
    (addLocal_fresh_preserves [("x", 1)] "x" 2 (by decide)).2.2⟩

/-- Claim C10: the generated get_at_index and set_at_index declare their
index parameter (position 1, after the implicit this) as the unsigned
32-bit integer type, while is_valid_index declares its index parameter as
the unsigned 64-bit integer type, which is strictly wider. -/
theorem array_index_param_types (elemTy : Ty) :
    get_at_index_params.get? 1 = some (Ty.int 32 false) ∧
    (set_at_index_params elemTy).get? 1 = some (Ty.int 32 false) ∧
    is_valid_index_params.get? 1 = some (Ty.int 64 false) ∧
    (getUnsignedTy 32).getBit < getSizeTy.getBit :=
  ⟨rfl, rfl, rfl, by decide⟩

/-- Claim C3 evaluated at element type of 32 bits, n equal 4, fresh
allocation 100 and a zeroed object: the byte size is 4 times (32 / 8) and
malloc receives 16 as the claim states, and the allocation lands in the
buffer field; but the final fields are buffer 100, size 16, max 0, factor
0 rather than the claimed buffer, size 4, max 4, factor 16: set_max is
passed the constant 0 (not n), and set_max and set_factor both store into
the size field. -/
theorem constructor_size_eval :
    constructor_size_body 32 100 ⟨0, 0, 0, 0⟩ 4 =
      (⟨100, 16, 0, 0⟩, [HeapEff.mallocE 16 100]) ∧
    (constructor_size_body 32 100 ⟨0, 0, 0, 0⟩ 4).1.max ≠ 4 ∧
    (constructor_size_body 32 100 ⟨0, 0, 0, 0⟩ 4).1.size ≠ 4 := by decide

/-- Claim C4 evaluated on the object with fields 10, 11, 12, 13: the four
getters read their own fields (indices 0, 1, 2, 3) and set_buffer and
set_size write their own fields, but set_max and set_factor both store
into the size field (index 1), leaving max and factor untouched. -/
theorem array_accessor_eval :
    get_buffer_body ⟨10, 11, 12, 13⟩ = 10 ∧
    get_size_body ⟨10, 11, 12, 13⟩ = 11 ∧
    get_max_body ⟨10, 11, 12, 13⟩ = 12 ∧
    get_factor_body ⟨10, 11, 12, 13⟩ = 13 ∧
    set_buffer_body ⟨10, 11, 12, 13⟩ 99 = ⟨99, 11, 12, 13⟩ ∧
    set_size_body ⟨10, 11, 12, 13⟩ 99 = ⟨10, 99, 12, 13⟩ ∧
    set_max_body ⟨10, 11, 12, 13⟩ 99 = ⟨10, 99, 12, 13⟩ ∧
    set_factor_body ⟨10, 11, 12, 13⟩ 99 = ⟨10, 99, 12, 13⟩ := by decide

/-- Claim C5 evaluated at element type of 32 bits, new_max equal 8 and
fresh allocation 200: on the non-null buffer 50 with size 7 the generated
resize mallocs 32 bytes, copies size bytes via memcpy and frees the old
buffer, and leaves size unchanged, as the claim states; but new_max is
stored through the getElementPtr of field index 3, so factor becomes 8
while max stays 4. On a null buffer the copy and free are skipped and a
null is stored through the new buffer. -/
theorem resize_eval :
    resize_body 32 200 ⟨50, 7, 4, 16⟩ 8 =
      (⟨200, 7, 4, 8⟩,
        [HeapEff.mallocE 32 200, HeapEff.memcpyE 200 50 7, HeapEff.freeE 50]) ∧
    (resize_body 32 200 ⟨50, 7, 4, 16⟩ 8).1.max = 4 ∧
    (resize_body 32 200 ⟨50, 7, 4, 16⟩ 8).1.factor = 8 ∧
    (resize_body 32 200 ⟨50, 7, 4, 16⟩ 8).1.size = 7 ∧
    resize_body 32 200 ⟨0, 0, 0, 0⟩ 8 =
      (⟨200, 0, 0, 8⟩, [HeapEff.mallocE 32 200, HeapEff.storeNullE 200]) := by decide

end Eisdrache
